import Mathlib

/-!
Verification of the real-time event-distribution core of the `ai-pm` backend.

The Python sources are shallowly embedded: every stateful class becomes a
Lean structure, every method a pure function from the old state (plus the
inputs the method reads, such as the current clock value) to the new state
and the returned value.  Python `dict`s become association lists,
`collections.deque(maxlen=n)` becomes a list with a bounded append, Python
`set`s become duplicate-free lists, and `datetime`/`time.time()` values
become integer (or natural-number) timestamps passed in explicitly.
-/

namespace AiPm

/-- Python `dict` lookup on an association list (first binding wins;
in the embedding keys are kept unique, matching `dict` semantics). -/
def alist_lookup {κ α : Type} [DecidableEq κ] (m : List (κ × α)) (k : κ) : Option α :=
  match m with
  | [] => none
  | (k', v) :: rest => if k' = k then some v else alist_lookup rest k

/-- Python `d[k] = v`: replace the binding in place if the key is present,
otherwise append a new binding (Python dicts keep insertion order). -/
def alist_insert {κ α : Type} [DecidableEq κ] (m : List (κ × α)) (k : κ) (v : α) :
    List (κ × α) :=
  match m with
  | [] => [(k, v)]
  | (k', v') :: rest =>
    if k' = k then (k, v) :: rest else (k', v') :: alist_insert rest k v

/-- Python `del d[k]`: drop the binding of `k` (keys are unique, so dropping
the first occurrence drops the only one). -/
def alist_erase {κ α : Type} [DecidableEq κ] (m : List (κ × α)) (k : κ) : List (κ × α) :=
  match m with
  | [] => []
  | (k', v') :: rest => if k' = k then rest else (k', v') :: alist_erase rest k

/-- Python `set.add`: insert an element into a duplicate-free list. -/
def set_insert {α : Type} [DecidableEq α] (s : List α) (x : α) : List α :=
  if x ∈ s then s else s ++ [x]

/-- Python `collections.deque(maxlen=n).append(x)`: append on the right, dropping
elements on the left when the bound would be exceeded. -/
def deque_append {α : Type} (maxlen : Nat) (q : List α) (x : α) : List α :=
  let q' := q ++ [x]
  if maxlen < q'.length then q'.drop (q'.length - maxlen) else q'

/-! ## Circuit breaker (`app/utils/error_handler.py`, class `CircuitBreaker`) -/

namespace CircuitBreaker

/-- Source `CircuitBreakerState` enum. -/
inductive State
  | closed
  | opened
  | half_open
deriving DecidableEq, Repr

/-- The mutable fields of class `CircuitBreaker`.  Timestamps are natural
numbers standing for `datetime.utcnow()` in seconds. -/
structure Breaker where
  failure_threshold : Nat
  recovery_timeout : Nat
  state : State
  failure_count : Nat
  last_failure_time : Option Nat
  success_count : Nat
deriving DecidableEq, Repr

/-- Source `CircuitBreaker.__init__`. -/
def init (failure_threshold recovery_timeout : Nat) : Breaker :=
  { failure_threshold := failure_threshold
    recovery_timeout := recovery_timeout
    state := State.closed
    failure_count := 0
    last_failure_time := none
    success_count := 0 }

/-- Source `CircuitBreaker._should_attempt_reset`. -/
def should_attempt_reset (cb : Breaker) (now : Nat) : Bool :=
  match cb.last_failure_time with
  | none => true
  | some t => cb.recovery_timeout ≤ now - t

/-- Source `CircuitBreaker._on_success`. -/
def on_success (cb : Breaker) : Breaker :=
  let cb1 :=
    if cb.state = State.half_open then
      let sc := cb.success_count + 1
      if 3 ≤ sc then
        { cb with state := State.closed, success_count := sc, failure_count := 0 }
      else
        { cb with success_count := sc }
    else cb
  { cb1 with failure_count := 0, last_failure_time := none }

/-- Source `CircuitBreaker._on_failure`. -/
def on_failure (cb : Breaker) (now : Nat) : Breaker :=
  let cb1 := { cb with failure_count := cb.failure_count + 1, last_failure_time := some now }
  if cb1.failure_threshold ≤ cb1.failure_count then
    { cb1 with state := State.opened }
  else cb1

/-- Result of `CircuitBreaker.call`: the guarded operation was never invoked
(the breaker raised while open), or it was invoked and succeeded, or it was
invoked and raised. -/
inductive CallResult
  | fast_fail
  | ok
  | op_error
deriving DecidableEq, Repr

/-- Source `CircuitBreaker.call`.  `succeeds` abstracts whether `func(*args)`
returns normally or raises the expected exception; `now` is the clock at
the moment of the call. -/
def call (cb : Breaker) (now : Nat) (succeeds : Bool) : CallResult × Breaker :=
  if cb.state = State.opened then
    if should_attempt_reset cb now then
      let cb1 := { cb with state := State.half_open, success_count := 0 }
      if succeeds then (CallResult.ok, on_success cb1)
      else (CallResult.op_error, on_failure cb1 now)
    else (CallResult.fast_fail, cb)
  else
    if succeeds then (CallResult.ok, on_success cb)
    else (CallResult.op_error, on_failure cb now)

/-- Run a sequence of calls, each given as (clock value, operation outcome). -/
def run_calls (cb : Breaker) (steps : List (Nat × Bool)) : Breaker :=
  steps.foldl (fun c s => (call c s.1 s.2).2) cb

end CircuitBreaker

/-! ## Connection-level rate limiting
(`app/services/connection_manager.py`, `ConnectionManager.check_rate_limit`)

`self.message_rates` is a `defaultdict(lambda: deque(maxlen=60))` keyed by
connection id; the method reads and mutates only the queue of the given
connection, so the embedding acts on that queue directly.  Timestamps are
integers standing for `time.time()`. -/

namespace ConnectionManager

/-- Source `ConnectionManager.check_rate_limit`, acting on the per-connection
timestamp queue.  `rate_limit_messages` is the configured ceiling
(`self.rate_limit_messages`, 100 in the shipped configuration); the deque
bound 60 is hard-coded at the queue's creation site.  Returns the boolean
result and the mutated queue. -/
def check_rate_limit (rate_limit_messages : Nat) (rate_queue : List Int) (now : Int) :
    Bool × List Int :=
  let q1 := deque_append 60 rate_queue now
  let cutoff := now - 60
  let q2 := q1.dropWhile (fun t => t < cutoff)
  (decide (q2.length ≤ rate_limit_messages), q2)

end ConnectionManager

/-! ## Broadcast engine (`app/services/broadcast_service.py`) -/

namespace BroadcastService

/-- Class `BroadcastMessage`.  `delivered_to` and `failed_to` are Python
sets, embedded as duplicate-free lists.  `delay` is the float `self.delay`
(initially `1.0`), embedded as a rational. -/
structure BroadcastMessage where
  message_id : String
  event_type : String
  target_type : String
  target_ids : List String
  priority : Int
  delivered_to : List String
  failed_to : List String
  attempts : Nat
  max_attempts : Nat
  delay : ℚ
deriving DecidableEq, Repr

/-- Source `BroadcastMessage.__init__`. -/
def new_message (message_id event_type target_type : String) (target_ids : List String)
    (priority : Int) : BroadcastMessage :=
  { message_id := message_id
    event_type := event_type
    target_type := target_type
    target_ids := target_ids
    priority := priority
    delivered_to := []
    failed_to := []
    attempts := 0
    max_attempts := 3
    delay := 1 }

/-- Source `BroadcastMessage.should_retry`. -/
def should_retry (m : BroadcastMessage) : Bool :=
  decide (m.attempts < m.max_attempts)

/-- Source `BroadcastMessage.get_retry_delay`. -/
def get_retry_delay (m : BroadcastMessage) : ℚ :=
  m.delay * 2 ^ m.attempts

/-- Source `BroadcastMessage.mark_delivered`. -/
def mark_delivered (m : BroadcastMessage) (connection_id : String) : BroadcastMessage :=
  { m with delivered_to := set_insert m.delivered_to connection_id }

/-- Source `BroadcastMessage.mark_failed`. -/
def mark_failed (m : BroadcastMessage) (connection_id : String) : BroadcastMessage :=
  { m with failed_to := set_insert m.failed_to connection_id }

/-- Source `BroadcastMessage.is_complete`. -/
def is_complete (m : BroadcastMessage) : Bool :=
  decide (m.target_ids.length ≤ m.delivered_to.length) || !(should_retry m)

/-- Source `self.max_broadcasts_per_minute` as shipped. -/
def max_broadcasts_per_minute : Nat := 100

/-- Source `BroadcastService._check_rate_limit`, acting on the timestamp queue of
the current wall-clock minute.  `self.broadcast_rates` is a
`defaultdict(lambda: deque(maxlen=60))` keyed by the minute string
`now.strftime("%Y-%m-%d %H:%M")`; the method reads and mutates only that
queue, so the embedding acts on it directly.  Timestamps are integers
standing for `datetime.utcnow()` in seconds. -/
def check_rate_limit (rate_queue : List Int) (now : Int) : Bool × List Int :=
  let q1 := deque_append 60 rate_queue now
  let cutoff := now - 60
  let q2 := q1.dropWhile (fun t => t < cutoff)
  (decide (q2.length ≤ max_broadcasts_per_minute), q2)

/-- One step of the fan-out loop in `BroadcastService._process_broadcast`:
for a single target id, skip it if already delivered, otherwise resolve the
connection (`registered`) and attempt the transport send (`send_ok`),
recording the outcome. -/
def deliver_one (registered send_ok : String → Bool) (m : BroadcastMessage)
    (connection_id : String) : BroadcastMessage :=
  if connection_id ∈ m.delivered_to then m
  else if registered connection_id then
    if send_ok connection_id then mark_delivered m connection_id
    else mark_failed m connection_id
  else mark_failed m connection_id

/-- The full fan-out loop of `BroadcastService._process_broadcast` over
`message.target_ids`. -/
def deliver_targets (registered send_ok : String → Bool) (m : BroadcastMessage) :
    BroadcastMessage :=
  m.target_ids.foldl (deliver_one registered send_ok) m

/-- Source `BroadcastService._process_broadcast`.  Returns the mutated rate queue,
the mutated message, and — when a retry is scheduled via
`asyncio.create_task(self._retry_broadcast(message, retry_delay))` — the
scheduled delay in seconds. -/
def process_broadcast (registered send_ok : String → Bool) (rate_queue : List Int)
    (now : Int) (m : BroadcastMessage) : List Int × BroadcastMessage × Option ℚ :=
  let rc := check_rate_limit rate_queue now
  if rc.1 then
    let m1 := deliver_targets registered send_ok m
    let m2 := { m1 with attempts := m1.attempts + 1 }
    if !(is_complete m2) && should_retry m2 then (rc.2, m2, some (get_retry_delay m2))
    else (rc.2, m2, none)
  else (rc.2, m, none)

/-- The environment of one dispatch pass: the registry and transport
outcomes, and the rate-limiter queue and clock at that pass. -/
structure PassEnv where
  registered : String → Bool
  send_ok : String → Bool
  rate_queue : List Int
  now : Int

/-- The message after a sequence of dispatch passes (the message keeps its
accumulated `delivered_to`/`failed_to` state across retries). -/
def run_passes (envs : List PassEnv) (m : BroadcastMessage) : BroadcastMessage :=
  envs.foldl (fun acc e => (process_broadcast e.registered e.send_ok e.rate_queue e.now acc).2.1) m

/-- The service-level state touched by the broadcast entry points:
the three priority queues (deques with `maxlen=max_queue_size`), the
`active_broadcasts` map, and the `total_broadcasts` counter. -/
structure ServiceState where
  max_queue_size : Nat
  high_priority_queue : List BroadcastMessage
  normal_priority_queue : List BroadcastMessage
  low_priority_queue : List BroadcastMessage
  active_broadcasts : List (String × BroadcastMessage)
  total_broadcasts : Nat

/-- Source `BroadcastService.__init__` (the fields above; `max_queue_size`
defaults to 1000). -/
def init_service : ServiceState :=
  { max_queue_size := 1000
    high_priority_queue := []
    normal_priority_queue := []
    low_priority_queue := []
    active_broadcasts := []
    total_broadcasts := 0 }

/-- Source `BroadcastService._add_to_queue`. -/
def add_to_queue (st : ServiceState) (m : BroadcastMessage) : ServiceState :=
  let st1 :=
    if 3 ≤ m.priority then
      { st with high_priority_queue := deque_append st.max_queue_size st.high_priority_queue m }
    else if 2 ≤ m.priority then
      { st with normal_priority_queue := deque_append st.max_queue_size st.normal_priority_queue m }
    else
      { st with low_priority_queue := deque_append st.max_queue_size st.low_priority_queue m }
  { st1 with active_broadcasts := alist_insert st1.active_broadcasts m.message_id m
             total_broadcasts := st1.total_broadcasts + 1 }

/-- Source `BroadcastService.broadcast_to_project`.  `resolved_target_ids` is the
id list obtained from `connection_manager.get_project_connections`;
`message_id` is the id string built from the project id, event type and
current timestamp. -/
def broadcast_to_project (st : ServiceState) (resolved_target_ids : List String)
    (message_id event_type : String) (priority : Int) : String × ServiceState :=
  if resolved_target_ids = [] then (message_id, st)
  else
    (message_id,
     add_to_queue st (new_message message_id event_type "project" resolved_target_ids priority))

/-- Source `BroadcastService.broadcast_to_user` (targets resolved via
`connection_manager.get_user_connections`). -/
def broadcast_to_user (st : ServiceState) (resolved_target_ids : List String)
    (message_id event_type : String) (priority : Int) : String × ServiceState :=
  if resolved_target_ids = [] then (message_id, st)
  else
    (message_id,
     add_to_queue st (new_message message_id event_type "user" resolved_target_ids priority))

/-- Source `BroadcastService.broadcast_system_event` (targets are all keys of
`connection_manager.connections`). -/
def broadcast_system_event (st : ServiceState) (resolved_target_ids : List String)
    (message_id event_type : String) (priority : Int) : String × ServiceState :=
  if resolved_target_ids = [] then (message_id, st)
  else
    (message_id,
     add_to_queue st (new_message message_id event_type "system" resolved_target_ids priority))

/-- Source `BroadcastService.broadcast_to_connections`: the caller supplies the
target id list directly, and — unlike the three entry points above — the
code has no empty-target guard before `_add_to_queue`. -/
def broadcast_to_connections (st : ServiceState) (connection_ids : List String)
    (message_id event_type : String) (priority : Int) : String × ServiceState :=
  (message_id,
   add_to_queue st (new_message message_id event_type "connection" connection_ids priority))

end BroadcastService

/-! ## Event model (`app/events/websocket_events.py`) -/

namespace Events

/-- Source `WebSocketEvent` (the fields read by `matches_event`).  The payload
`data : Dict[str, Any]` is embedded as an association list with string
values standing for the opaque payload values. -/
structure WebSocketEvent where
  event_type : String
  data : List (String × String)
  project_id : Option String
  user_id : Option String
deriving DecidableEq, Repr

/-- Source `EventSubscription` (the fields read by `matches_event`). -/
structure EventSubscription where
  event_types : List String
  project_ids : List String
  user_id : Option String
  filters : Option (List (String × String))
deriving DecidableEq, Repr

/-- Python truthiness of an `Optional[str]`: `None` and the empty string
are falsy. -/
def truthy_str (x : Option String) : Bool :=
  match x with
  | none => false
  | some s => decide (s ≠ "")

/-- Python `event.project_id not in self.project_ids` negated: membership
of an optional value in a string list (`None` is never a member). -/
def opt_mem (x : Option String) (l : List String) : Bool :=
  match x with
  | none => false
  | some s => decide (s ∈ l)

/-- Source `EventSubscription.matches_event`. -/
def matches_event (sub : EventSubscription) (event : WebSocketEvent) : Bool :=
  if ¬ (event.event_type ∈ sub.event_types) then false
  else if sub.project_ids ≠ [] ∧ ¬ (opt_mem event.project_id sub.project_ids = true) then false
  else if truthy_str sub.user_id = true ∧ event.user_id ≠ sub.user_id then false
  else
    match sub.filters with
    | none => true
    | some fs =>
      fs.all (fun kv =>
        match alist_lookup event.data kv.1 with
        | some v => decide (v = kv.2)
        | none => true)

/-- The matching predicate in the words of the spec (C10): type in the
set; room id in the room set whenever that set is non-empty; user id equal
to the subscription's user id whenever one is set; every filter key present
in the payload maps to the expected value. -/
def spec_matches (sub : EventSubscription) (event : WebSocketEvent) : Bool :=
  decide (event.event_type ∈ sub.event_types) &&
  (decide (sub.project_ids = []) || opt_mem event.project_id sub.project_ids) &&
  (decide (sub.user_id = none) || decide (event.user_id = sub.user_id)) &&
  (sub.filters.getD []).all (fun kv =>
    match alist_lookup event.data kv.1 with
    | some v => decide (v = kv.2)
    | none => true)

end Events

/-! ## Status monitor (`app/services/status_service.py`) -/

namespace StatusService

/-- One entry of `SystemStatus.alerts` (the dict keys the claims read). -/
structure Alert where
  alert_type : String
  severity : String
  message : String
deriving DecidableEq, Repr

/-- Class `SystemStatus` (the fields driving overall health). -/
structure SystemStatus where
  healthy : Bool
  components : List (String × Bool)
  alerts : List Alert
deriving DecidableEq, Repr

/-- Source `SystemStatus.__init__`. -/
def init_status : SystemStatus :=
  { healthy := true
    components :=
      [("redis", true), ("websocket", true), ("ai_service", true),
       ("chat_processor", true), ("context_engine", true)]
    alerts := [] }

/-- Source `SystemStatus.add_alert` (append, then keep only the last 100). -/
def add_alert (s : SystemStatus) (a : Alert) : SystemStatus :=
  let alerts' := s.alerts ++ [a]
  { s with alerts := if 100 < alerts'.length then alerts'.drop (alerts'.length - 100) else alerts' }

/-- Source `SystemStatus.update_component_status` (records a high-severity
`component_failure` alert when the component is unhealthy). -/
def update_component_status (s : SystemStatus) (component : String) (healthy : Bool) :
    SystemStatus :=
  let s1 := { s with components := alist_insert s.components component healthy }
  if healthy then s1
  else
    add_alert s1
      { alert_type := "component_failure", severity := "high",
        message := "Component " ++ component ++ " is unhealthy" }

/-- Source `StatusService._perform_health_checks` (normal path: the Redis and
WebSocket probes return the given booleans, the other components keep their
recorded values, and `self.system_status.healthy` is set to the conjunction
of all component values). -/
def perform_health_checks (s : SystemStatus) (redis_healthy websocket_healthy : Bool) :
    SystemStatus :=
  let s1 := update_component_status s "redis" redis_healthy
  let s2 := update_component_status s1 "websocket" websocket_healthy
  { s2 with healthy := s2.components.all (fun kv => kv.2) }

end StatusService

/-! ## Connection registry (`app/services/connection_manager.py`) -/

namespace ConnectionManager

/-- Source `ConnectionInfo` (the fields read by the registry operations under
verification; `project_ids` is a Python set, embedded as a duplicate-free
list). -/
structure ConnectionInfo where
  connection_id : String
  sid : String
  ip_address : String
  user_agent : String
  user_id : Option String
  project_ids : List String
deriving DecidableEq, Repr

/-- Source `ConnectionInfo.__init__`. -/
def new_connection_info (connection_id sid ip_address user_agent : String) : ConnectionInfo :=
  { connection_id := connection_id
    sid := sid
    ip_address := ip_address
    user_agent := user_agent
    user_id := none
    project_ids := [] }

/-- The `ConnectionManager` state: the connection registry, the
`sid -> connection_id` mapping, the user and project (room) indices, the
per-address connection counters, and the counters used for statistics. -/
structure Manager where
  max_connections : Nat
  connections : List (String × ConnectionInfo)
  sid_to_connection : List (String × String)
  user_connections : List (String × List String)
  project_connections : List (String × List String)
  connections_per_ip : List (String × Int)
  total_connections : Nat
  active_connections : Int
deriving DecidableEq, Repr

/-- Source `ConnectionManager.__init__`. -/
def init_manager (max_connections : Nat) : Manager :=
  { max_connections := max_connections
    connections := []
    sid_to_connection := []
    user_connections := []
    project_connections := []
    connections_per_ip := []
    total_connections := 0
    active_connections := 0 }

/-- Source `self.connections_per_ip[ip]` with `defaultdict(int)` semantics. -/
def ip_count (st : Manager) (ip_address : String) : Int :=
  (alist_lookup st.connections_per_ip ip_address).getD 0

/-- The member set of a room: `self.project_connections[project_id]` with
`defaultdict(set)` semantics. -/
def room_members (st : Manager) (project_id : String) : List String :=
  (alist_lookup st.project_connections project_id).getD []

/-- Source `self.user_connections[user_id]` with `defaultdict(set)` semantics. -/
def user_members (st : Manager) (user_id : String) : List String :=
  (alist_lookup st.user_connections user_id).getD []

/-- Source `ConnectionManager.add_connection`. -/
def add_connection (st : Manager) (connection_id sid ip_address user_agent : String) :
    Bool × Manager :=
  if st.max_connections ≤ st.connections.length then (false, st)
  else if 10 ≤ ip_count st ip_address then (false, st)
  else
    (true,
     { st with
       connections := alist_insert st.connections connection_id
         (new_connection_info connection_id sid ip_address user_agent)
       sid_to_connection := alist_insert st.sid_to_connection sid connection_id
       connections_per_ip := alist_insert st.connections_per_ip ip_address
         (ip_count st ip_address + 1)
       total_connections := st.total_connections + 1
       active_connections := st.active_connections + 1 })

/-- Python truthiness of `connection_info.user_id` in
`if connection_info.user_id:`. -/
def truthy_user (x : Option String) : Bool :=
  match x with
  | none => false
  | some s => decide (s ≠ "")

/-- The per-room discard step of `ConnectionManager.remove_connection`:
`self.project_connections[project_id].discard(connection_id)`. -/
def discard_from_room (connection_id : String) (s : Manager) (project_id : String) : Manager :=
  let members := (room_members s project_id).erase connection_id
  { s with project_connections := alist_insert s.project_connections project_id members }

/-- The user-index block of `ConnectionManager.remove_connection`:
`if connection_info.user_id: self.user_connections[...].discard(...)`. -/
def remove_user_index (st : Manager) (connection_id : String) (info : ConnectionInfo) :
    Manager :=
  if truthy_user info.user_id then
    let uid := info.user_id.getD ""
    let umembers := (user_members st uid).erase connection_id
    { st with user_connections := alist_insert st.user_connections uid umembers }
  else st

/-- The per-address block of `ConnectionManager.remove_connection`:
decrement `self.connections_per_ip[ip]`, deleting the entry at zero. -/
def remove_ip_entry (st : Manager) (info : ConnectionInfo) : Manager :=
  let n := ip_count st info.ip_address - 1
  if n ≤ 0 then
    { st with connections_per_ip := alist_erase st.connections_per_ip info.ip_address }
  else
    { st with connections_per_ip := alist_insert st.connections_per_ip info.ip_address n }

/-- The sid-mapping block of `ConnectionManager.remove_connection`. -/
def remove_sid_entry (st : Manager) (info : ConnectionInfo) : Manager :=
  if (alist_lookup st.sid_to_connection info.sid).isSome then
    { st with sid_to_connection := alist_erase st.sid_to_connection info.sid }
  else st

/-- Source `ConnectionManager.remove_connection`. -/
def remove_connection (st : Manager) (connection_id : String) : Bool × Manager :=
  match alist_lookup st.connections connection_id with
  | none => (false, st)
  | some info =>
    let st1 := remove_user_index st connection_id info
    let st2 := info.project_ids.foldl (discard_from_room connection_id) st1
    let st3 := remove_ip_entry st2 info
    let st4 := remove_sid_entry st3 info
    (true,
     { st4 with connections := alist_erase st4.connections connection_id
                active_connections := st4.active_connections - 1 })

/-- Source `ConnectionManager.join_project`. -/
def join_project (st : Manager) (connection_id project_id : String) : Bool × Manager :=
  match alist_lookup st.connections connection_id with
  | none => (false, st)
  | some info =>
    (true,
     { st with
       connections := alist_insert st.connections connection_id
         { info with project_ids := set_insert info.project_ids project_id }
       project_connections := alist_insert st.project_connections project_id
         (set_insert (room_members st project_id) connection_id) })

/-- Source `ConnectionManager.leave_project`. -/
def leave_project (st : Manager) (connection_id project_id : String) : Bool × Manager :=
  match alist_lookup st.connections connection_id with
  | none => (false, st)
  | some info =>
    (true,
     { st with
       connections := alist_insert st.connections connection_id
         { info with project_ids := info.project_ids.erase project_id }
       project_connections := alist_insert st.project_connections project_id
         ((room_members st project_id).erase connection_id) })

/-- Source `ConnectionManager.get_project_connections`. -/
def get_project_connections (st : Manager) (project_id : String) : List ConnectionInfo :=
  (room_members st project_id).filterMap (fun cid => alist_lookup st.connections cid)

/-- One registry operation (the alphabet of claim C7, plus `add`, which is
needed to populate the registry at all). -/
inductive Op
  | add (connection_id sid ip_address user_agent : String)
  | join (connection_id project_id : String)
  | leave (connection_id project_id : String)
  | remove (connection_id : String)

/-- Apply one operation (discarding the returned boolean). -/
def apply_op (st : Manager) : Op → Manager
  | Op.add c s i u => (add_connection st c s i u).2
  | Op.join c p => (join_project st c p).2
  | Op.leave c p => (leave_project st c p).2
  | Op.remove c => (remove_connection st c).2

/-- Run a sequence of operations. -/
def run_ops (st : Manager) (ops : List Op) : Manager :=
  ops.foldl apply_op st

/-- Every `add` in the sequence uses a connection id that is not currently
registered (the spec's "connection id unique" invariant; the claim's own
operation alphabet — join/leave/remove — satisfies this vacuously). -/
def adds_fresh (st : Manager) : List Op → Bool
  | [] => true
  | op :: rest =>
    (match op with
     | Op.add c _ _ _ => (alist_lookup st.connections c).isNone
     | _ => true) && adds_fresh (apply_op st op) rest

/-- The registry/room-index consistency invariant maintained by the
operations: registry keys are unique; each stored record carries its own
key as `connection_id`; membership sets are duplicate-free; a connection's
own room set equals the set of rooms whose index contains its id; and every
id found in a room index is registered (no dangling index entries). -/
def consistent (st : Manager) : Prop :=
  (st.connections.map Prod.fst).Nodup ∧
  (∀ cid info, alist_lookup st.connections cid = some info → info.connection_id = cid) ∧
  (∀ cid info, alist_lookup st.connections cid = some info → info.project_ids.Nodup) ∧
  (∀ p, (room_members st p).Nodup) ∧
  (∀ cid info, alist_lookup st.connections cid = some info →
    ∀ p, (p ∈ info.project_ids ↔ cid ∈ room_members st p)) ∧
  (∀ p cid, cid ∈ room_members st p → (alist_lookup st.connections cid).isSome = true)

end ConnectionManager

end AiPm

namespace AiPm

open CircuitBreaker in
/-- C1.  The circuit-breaker state machine.  The code follows the specified
machine except for the half-open → open rule: a half-open success resets
`failure_count` to 0, so a later failure while half-open only sets
`failure_count = 1`, which is below `failure_threshold`, and the breaker
stays half-open instead of reopening.  The trace below (threshold 5,
cool-down 60) shows: closed initially, open after 5 consecutive failures,
fast-fail before cool-down, half-open at the first call after cool-down,
and then — after one half-open success — a half-open failure that leaves
the state half-open, contradicting the specified machine. -/
theorem claim_C1_half_open_failure_does_not_reopen :
    (init 5 60).state = State.closed ∧
    (run_calls (init 5 60)
      [(0, false), (1, false), (2, false), (3, false), (4, false)]).state = State.opened ∧
    call (run_calls (init 5 60)
      [(0, false), (1, false), (2, false), (3, false), (4, false)]) 30 true
      = (CallResult.fast_fail,
         run_calls (init 5 60)
           [(0, false), (1, false), (2, false), (3, false), (4, false)]) ∧
    (run_calls (init 5 60)
      [(0, false), (1, false), (2, false), (3, false), (4, false), (70, true)]).state
      = State.half_open ∧
    ¬ ((run_calls (init 5 60)
      [(0, false), (1, false), (2, false), (3, false), (4, false), (70, true),
       (71, false)]).state = State.opened) ∧
    (run_calls (init 5 60)
      [(0, false), (1, false), (2, false), (3, false), (4, false), (70, true),
       (71, false)]).state = State.half_open := by
  refine ⟨rfl, by decide, by decide, by decide, by decide, by decide⟩

theorem length_deque_append_le {α : Type} (maxlen : Nat) (q : List α) (x : α) :
    (deque_append maxlen q x).length ≤ maxlen := by
  unfold deque_append
  simp only []
  split
  · rw [List.length_drop]
    omega
  · omega

theorem length_dropWhile_le {α : Type} (p : α → Bool) (l : List α) :
    (l.dropWhile p).length ≤ l.length := by
  induction l with
  | nil => simp
  | cons a l ih =>
    rw [List.dropWhile_cons]
    split
    · exact Nat.le_succ_of_le ih
    · simp

theorem connection_check_rate_limit_true (q : List Int) (now : Int) :
    (ConnectionManager.check_rate_limit 100 q now).1 = true := by
  simp only [ConnectionManager.check_rate_limit, decide_eq_true_eq]
  exact le_trans (le_trans (length_dropWhile_le _ _) (length_deque_append_le 60 q now))
    (by norm_num)

theorem broadcast_check_rate_limit_true (q : List Int) (now : Int) :
    (BroadcastService.check_rate_limit q now).1 = true := by
  simp only [BroadcastService.check_rate_limit, BroadcastService.max_broadcasts_per_minute,
    decide_eq_true_eq]
  exact le_trans (le_trans (length_dropWhile_le _ _) (length_deque_append_le 60 q now))
    (by norm_num)

/-- C5.  Under the as-shipped configuration both rate limiters are
unreachable: each stores its timestamps in a `deque(maxlen=60)`, so after
the append-then-evict step the window can hold at most 60 samples, which is
always within the ceiling of 100 per minute — the limit-exceeded branch can
never be taken, whatever the call sequence (the queue argument ranges over
every possible queue state, reachable or not). -/
theorem claim_C5_rate_limiters_unreachable :
    (∀ (q : List Int) (now : Int), (ConnectionManager.check_rate_limit 100 q now).1 = true) ∧
    (∀ (q : List Int) (now : Int), (BroadcastService.check_rate_limit q now).1 = true) :=
  ⟨connection_check_rate_limit_true, broadcast_check_rate_limit_true⟩

/-- C6.  `check_rate_limit` is the specified soft sliding 60-second window:
it appends the current timestamp, evicts timestamps older than 60 seconds,
and returns whether the resulting count is within the configured ceiling
(first clause, stated for every ceiling, queue state and clock).  With a
ceiling of 3: three calls inside one window succeed, the fourth call inside
the same window fails, and once the window has fully elapsed a new call
succeeds again. -/
theorem claim_C6_sliding_window_rate_limit :
    (∀ (limit : Nat) (q : List Int) (now : Int),
      ConnectionManager.check_rate_limit limit q now
        = (decide (((deque_append 60 q now).dropWhile (fun t => t < now - 60)).length ≤ limit),
           (deque_append 60 q now).dropWhile (fun t => t < now - 60))) ∧
    ConnectionManager.check_rate_limit 3 [] 0 = (true, [0]) ∧
    ConnectionManager.check_rate_limit 3 [0] 10 = (true, [0, 10]) ∧
    ConnectionManager.check_rate_limit 3 [0, 10] 20 = (true, [0, 10, 20]) ∧
    ConnectionManager.check_rate_limit 3 [0, 10, 20] 30 = (false, [0, 10, 20, 30]) ∧
    ConnectionManager.check_rate_limit 3 [0, 10, 20, 30] 100 = (true, [100]) := by
  exact ⟨fun limit q now => rfl, by decide, by decide, by decide, by decide, by decide⟩

theorem alist_lookup_insert_self {κ α : Type} [DecidableEq κ] (m : List (κ × α)) (k : κ)
    (v : α) : alist_lookup (alist_insert m k v) k = some v := by
  induction m with
  | nil => simp [alist_insert, alist_lookup]
  | cons kv rest ih =>
    obtain ⟨k', v'⟩ := kv
    by_cases h : k' = k
    · subst h
      simp [alist_insert, alist_lookup]
    · simp [alist_insert, alist_lookup, h, ih]

theorem alist_lookup_insert_ne {κ α : Type} [DecidableEq κ] (m : List (κ × α)) (k k' : κ)
    (v : α) (h : k ≠ k') :
    alist_lookup (alist_insert m k v) k' = alist_lookup m k' := by
  induction m with
  | nil => simp [alist_insert, alist_lookup, h]
  | cons kv rest ih =>
    obtain ⟨k₀, v₀⟩ := kv
    by_cases hk : k₀ = k
    · subst hk
      simp [alist_insert, alist_lookup, h]
    · by_cases hk' : k₀ = k'
      · subst hk'
        simp [alist_insert, alist_lookup, hk]
      · simp [alist_insert, alist_lookup, hk, hk', ih]

theorem alist_lookup_erase_ne {κ α : Type} [DecidableEq κ] (m : List (κ × α)) (k k' : κ)
    (h : k ≠ k') :
    alist_lookup (alist_erase m k) k' = alist_lookup m k' := by
  induction m with
  | nil => simp [alist_erase]
  | cons kv rest ih =>
    obtain ⟨k₀, v₀⟩ := kv
    by_cases hk : k₀ = k
    · subst hk
      simp [alist_erase, alist_lookup, h]
    · by_cases hk' : k₀ = k'
      · subst hk'
        simp [alist_erase, alist_lookup, hk]
      · simp [alist_erase, alist_lookup, hk, hk', ih]

theorem alist_lookup_eq_none_of_not_mem {κ α : Type} [DecidableEq κ] (m : List (κ × α))
    (k : κ) (h : k ∉ m.map Prod.fst) : alist_lookup m k = none := by
  induction m with
  | nil => rfl
  | cons kv rest ih =>
    obtain ⟨k₀, v₀⟩ := kv
    simp only [List.map_cons, List.mem_cons] at h
    push_neg at h
    have hk : ¬ (k₀ = k) := fun he => h.1 he.symm
    simp [alist_lookup, hk, ih h.2]

theorem alist_lookup_isSome_iff {κ α : Type} [DecidableEq κ] (m : List (κ × α)) (k : κ) :
    (alist_lookup m k).isSome = true ↔ k ∈ m.map Prod.fst := by
  induction m with
  | nil => simp [alist_lookup]
  | cons kv rest ih =>
    obtain ⟨k₀, v₀⟩ := kv
    by_cases hk : k₀ = k
    · subst hk
      simp [alist_lookup]
    · have hne : ¬ (k = k₀) := fun he => hk he.symm
      simp only [alist_lookup, if_neg hk, List.map_cons, List.mem_cons]
      rw [ih]
      constructor
      · exact fun hm => Or.inr hm
      · rintro (he | hm)
        · exact absurd he hne
        · exact hm

theorem alist_lookup_erase_self {κ α : Type} [DecidableEq κ] (m : List (κ × α)) (k : κ)
    (h : (m.map Prod.fst).Nodup) : alist_lookup (alist_erase m k) k = none := by
  induction m with
  | nil => rfl
  | cons kv rest ih =>
    obtain ⟨k₀, v₀⟩ := kv
    simp only [List.map_cons, List.nodup_cons] at h
    by_cases hk : k₀ = k
    · subst hk
      simp only [alist_erase, if_pos rfl]
      exact alist_lookup_eq_none_of_not_mem rest k₀ h.1
    · simp [alist_erase, alist_lookup, hk, ih h.2]

theorem alist_keys_insert_mem {κ α : Type} [DecidableEq κ] (m : List (κ × α)) (k : κ)
    (v : α) (h : k ∈ m.map Prod.fst) :
    (alist_insert m k v).map Prod.fst = m.map Prod.fst := by
  induction m with
  | nil => simp at h
  | cons kv rest ih =>
    obtain ⟨k₀, v₀⟩ := kv
    by_cases hk : k₀ = k
    · subst hk
      simp [alist_insert]
    · have hmem : k ∈ rest.map Prod.fst := by
        simp only [List.map_cons, List.mem_cons] at h
        rcases h with he | hm
        · exact absurd he.symm hk
        · exact hm
      simp [alist_insert, hk, ih hmem]

theorem alist_keys_insert_not_mem {κ α : Type} [DecidableEq κ] (m : List (κ × α)) (k : κ)
    (v : α) (h : k ∉ m.map Prod.fst) :
    (alist_insert m k v).map Prod.fst = m.map Prod.fst ++ [k] := by
  induction m with
  | nil => simp [alist_insert]
  | cons kv rest ih =>
    obtain ⟨k₀, v₀⟩ := kv
    simp only [List.map_cons, List.mem_cons] at h
    push_neg at h
    have hk : ¬ (k₀ = k) := fun he => h.1 he.symm
    simp [alist_insert, hk, ih h.2]

theorem alist_nodup_insert {κ α : Type} [DecidableEq κ] (m : List (κ × α)) (k : κ) (v : α)
    (h : (m.map Prod.fst).Nodup) : ((alist_insert m k v).map Prod.fst).Nodup := by
  by_cases hk : k ∈ m.map Prod.fst
  · rw [alist_keys_insert_mem m k v hk]
    exact h
  · rw [alist_keys_insert_not_mem m k v hk]
    refine List.Nodup.append h (List.nodup_singleton k) ?_
    intro a ha hax
    rw [List.mem_singleton] at hax
    subst hax
    exact hk ha

theorem alist_keys_erase_sublist {κ α : Type} [DecidableEq κ] (m : List (κ × α)) (k : κ) :
    List.Sublist ((alist_erase m k).map Prod.fst) (m.map Prod.fst) := by
  induction m with
  | nil => simp [alist_erase]
  | cons kv rest ih =>
    obtain ⟨k₀, v₀⟩ := kv
    by_cases hk : k₀ = k
    · subst hk
      simp only [alist_erase, if_pos rfl, List.map_cons]
      exact List.sublist_cons_self _ _
    · simp only [alist_erase, if_neg hk, List.map_cons]
      exact List.Sublist.cons₂ _ ih

theorem alist_nodup_erase {κ α : Type} [DecidableEq κ] (m : List (κ × α)) (k : κ)
    (h : (m.map Prod.fst).Nodup) : ((alist_erase m k).map Prod.fst).Nodup :=
  (alist_keys_erase_sublist m k).nodup h

theorem nodup_set_insert {α : Type} [DecidableEq α] (s : List α) (x : α) (h : s.Nodup) :
    (set_insert s x).Nodup := by
  unfold set_insert
  split
  · exact h
  · next hx =>
    refine List.Nodup.append h (List.nodup_singleton x) ?_
    intro a ha hax
    rw [List.mem_singleton] at hax
    subst hax
    exact hx ha

open BroadcastService

theorem mem_set_insert {α : Type} [DecidableEq α] (s : List α) (x c : α) :
    c ∈ set_insert s x ↔ c ∈ s ∨ c = x := by
  unfold set_insert
  split
  · constructor
    · exact fun h => Or.inl h
    · rintro (h | rfl) <;> assumption
  · simp

theorem mem_foldl_set_insert {α : Type} [DecidableEq α] (l : List α) (s : List α) (c : α) :
    c ∈ l.foldl set_insert s ↔ c ∈ s ∨ c ∈ l := by
  induction l generalizing s with
  | nil => simp
  | cons a l ih =>
    rw [List.foldl_cons, ih, mem_set_insert]
    constructor
    · rintro (hs | hl)
      · rcases hs with hs | rfl
        · exact Or.inl hs
        · exact Or.inr (List.mem_cons_self _ _)
      · exact Or.inr (List.mem_cons_of_mem _ hl)
    · rintro (hs | hl)
      · exact Or.inl (Or.inl hs)
      · rcases List.mem_cons.mp hl with rfl | hl'
        · exact Or.inl (Or.inr rfl)
        · exact Or.inr hl'

theorem deliver_one_target_ids (reg snd : String → Bool) (m : BroadcastMessage) (c : String) :
    (deliver_one reg snd m c).target_ids = m.target_ids := by
  unfold deliver_one mark_delivered mark_failed
  split
  · rfl
  · split
    · split <;> rfl
    · rfl

theorem deliver_one_delivered (reg snd : String → Bool) (m : BroadcastMessage) (c d : String)
    (h : d ∈ (deliver_one reg snd m c).delivered_to) : d ∈ m.delivered_to ∨ d = c := by
  unfold deliver_one mark_delivered mark_failed at h
  split at h
  · exact Or.inl h
  · split at h
    · split at h
      · simpa [mem_set_insert] using h
      · exact Or.inl h
    · exact Or.inl h

theorem deliver_fold_subset (reg snd : String → Bool) (l : List String) (m : BroadcastMessage) :
    (l.foldl (deliver_one reg snd) m).target_ids = m.target_ids ∧
    ∀ c ∈ (l.foldl (deliver_one reg snd) m).delivered_to, c ∈ m.delivered_to ∨ c ∈ l := by
  induction l generalizing m with
  | nil => simp
  | cons a l ih =>
    rw [List.foldl_cons]
    refine ⟨((ih (deliver_one reg snd m a)).1).trans (deliver_one_target_ids reg snd m a), ?_⟩
    intro c hc
    rcases (ih (deliver_one reg snd m a)).2 c hc with h | h
    · rcases deliver_one_delivered reg snd m a c h with h' | h'
      · exact Or.inl h'
      · exact Or.inr (by simp [h'])
    · exact Or.inr (by simp [h])

theorem process_broadcast_delivered (reg snd : String → Bool) (q : List Int) (t : Int)
    (m : BroadcastMessage) :
    (process_broadcast reg snd q t m).2.1.target_ids = m.target_ids ∧
    ∀ c ∈ (process_broadcast reg snd q t m).2.1.delivered_to,
      c ∈ m.delivered_to ∨ c ∈ m.target_ids := by
  have h := deliver_fold_subset reg snd m.target_ids m
  simp only [process_broadcast, deliver_targets]
  split
  · split
    · exact ⟨h.1, h.2⟩
    · exact ⟨h.1, h.2⟩
  · exact ⟨rfl, fun c hc => Or.inl hc⟩

theorem run_passes_delivered (envs : List PassEnv) (m : BroadcastMessage) :
    (run_passes envs m).target_ids = m.target_ids ∧
    ∀ c ∈ (run_passes envs m).delivered_to, c ∈ m.delivered_to ∨ c ∈ m.target_ids := by
  induction envs generalizing m with
  | nil => exact ⟨rfl, fun c hc => Or.inl hc⟩
  | cons e envs ih =>
    have hstep := process_broadcast_delivered e.registered e.send_ok e.rate_queue e.now m
    have htail := ih (process_broadcast e.registered e.send_ok e.rate_queue e.now m).2.1
    unfold run_passes at htail ⊢
    rw [List.foldl_cons]
    refine ⟨htail.1.trans hstep.1, ?_⟩
    intro c hc
    rcases htail.2 c hc with h | h
    · exact hstep.2 c h
    · rw [hstep.1] at h
      exact Or.inr h

/-- C2 counterexample.  With the duplicate target list `["A", "A"]`, one
all-successful dispatch pass leaves `delivered_to = {"A"}`, which covers
every target id, and `attempts = 1 < max_attempts`, yet `is_complete`
returns false — because the code compares `len(delivered_to)` with
`len(target_ids)` rather than testing set coverage. -/
theorem claim_C2_counterexample :
    (∀ c ∈ (process_broadcast (fun _ => true) (fun _ => true) [] 0
        (new_message "m" "e" "connection" ["A", "A"] 1)).2.1.target_ids,
      c ∈ (process_broadcast (fun _ => true) (fun _ => true) [] 0
        (new_message "m" "e" "connection" ["A", "A"] 1)).2.1.delivered_to) ∧
    (process_broadcast (fun _ => true) (fun _ => true) [] 0
        (new_message "m" "e" "connection" ["A", "A"] 1)).2.1.attempts = 1 ∧
    is_complete (process_broadcast (fun _ => true) (fun _ => true) [] 0
        (new_message "m" "e" "connection" ["A", "A"] 1)).2.1 = false := by
  refine ⟨by decide, by decide, by decide⟩

/-- C2 (amended).  For every broadcast message, at every point in its
lifecycle, the delivered-to set is a subset of the target id list (first
clause, for every message created by an entry point and every sequence of
dispatch passes).  `is_complete` compares the cardinality of the
delivered-to set with the length of the target id list, so it is true
exactly when delivered-to covers every target id or the attempt counter has
reached the maximum, provided the target id list is duplicate-free (second
clause); with duplicate target ids the cardinality test can stay false even
though every target id has been delivered. -/
theorem claim_C2_amended :
    (∀ (envs : List PassEnv) (mid et tt : String) (tids : List String) (prio : Int),
      ∀ c ∈ (run_passes envs (new_message mid et tt tids prio)).delivered_to, c ∈ tids) ∧
    (∀ m : BroadcastMessage, m.target_ids.Nodup → m.delivered_to.Nodup →
      (∀ c ∈ m.delivered_to, c ∈ m.target_ids) →
      (is_complete m = true ↔
        ((∀ c ∈ m.target_ids, c ∈ m.delivered_to) ∨ m.max_attempts ≤ m.attempts))) := by
  constructor
  · intro envs mid et tt tids prio c hc
    rcases (run_passes_delivered envs (new_message mid et tt tids prio)).2 c hc with h | h
    · simp [new_message] at h
    · exact h
  · intro m ht hd hsub
    simp only [is_complete, should_retry, Bool.or_eq_true, Bool.not_eq_true',
      decide_eq_true_eq, decide_eq_false_iff_not, not_lt]
    constructor
    · rintro (hle | hge)
      · refine Or.inl ?_
        intro c hc
        have hsp : List.Subperm m.delivered_to m.target_ids := hd.subperm hsub
        have hperm := hsp.perm_of_length_le hle
        exact hperm.symm.subset hc
      · exact Or.inr hge
    · rintro (hcov | hge)
      · exact Or.inl (ht.subperm hcov).length_le
      · exact Or.inr hge

theorem claim_C2_amended_witness :
    (∀ c ∈ (run_passes [⟨fun _ => true, fun _ => true, [], 0⟩]
        (new_message "m" "e" "connection" ["A", "B"] 1)).delivered_to, c ∈ ["A", "B"]) ∧
    (is_complete ⟨"m", "e", "connection", ["A", "B"], 1, ["A", "B"], [], 1, 3, 1⟩ = true ↔
      ((∀ c ∈ (["A", "B"] : List String), c ∈ (["A", "B"] : List String)) ∨ (3 : Nat) ≤ 1)) :=
  ⟨claim_C2_amended.1 [⟨fun _ => true, fun _ => true, [], 0⟩] "m" "e" "connection" ["A", "B"] 1,
   claim_C2_amended.2 ⟨"m", "e", "connection", ["A", "B"], 1, ["A", "B"], [], 1, 3, 1⟩
     (by decide) (by decide) (by decide)⟩

theorem deliver_fold_all_fail (l : List String) (m : BroadcastMessage)
    (h : m.delivered_to = []) :
    l.foldl (deliver_one (fun _ => true) (fun _ => false)) m
      = { m with failed_to := l.foldl set_insert m.failed_to } := by
  induction l generalizing m with
  | nil => rfl
  | cons a l ih =>
    rw [List.foldl_cons, List.foldl_cons]
    have h1 : deliver_one (fun _ => true) (fun _ => false) m a
        = { m with failed_to := set_insert m.failed_to a } := by
      simp [deliver_one, mark_failed, h]
    rw [h1, ih ({ m with failed_to := set_insert m.failed_to a }) h]

theorem ite_prod_split {c : Prop} [Decidable c] {α β γ : Type} (a : α) (b : β) (x y : γ) :
    (if c then (a, b, x) else (a, b, y)) = (a, b, if c then x else y) := by
  split <;> rfl

theorem process_all_fail (q : List Int) (t : Int) (m : BroadcastMessage)
    (h : m.delivered_to = []) :
    process_broadcast (fun _ => true) (fun _ => false) q t m
      = ((BroadcastService.check_rate_limit q t).2,
         { m with failed_to := m.target_ids.foldl set_insert m.failed_to,
                  attempts := m.attempts + 1 },
         if (!(is_complete { m with
                  failed_to := m.target_ids.foldl set_insert m.failed_to,
                  attempts := m.attempts + 1 })
             && should_retry { m with
                  failed_to := m.target_ids.foldl set_insert m.failed_to,
                  attempts := m.attempts + 1 }) = true
         then some (get_retry_delay { m with
                  failed_to := m.target_ids.foldl set_insert m.failed_to,
                  attempts := m.attempts + 1 })
         else none) := by
  simp only [process_broadcast, deliver_targets, broadcast_check_rate_limit_true,
    deliver_fold_all_fail m.target_ids m h]
  exact ite_prod_split _ _ _ _

theorem process_all_fail_msg (q : List Int) (t : Int) (m : BroadcastMessage)
    (h : m.delivered_to = []) :
    (process_broadcast (fun _ => true) (fun _ => false) q t m).2.1
      = { m with failed_to := m.target_ids.foldl set_insert m.failed_to,
                 attempts := m.attempts + 1 } := by
  simp [process_all_fail q t m h]

theorem process_all_fail_sched (q : List Int) (t : Int) (m : BroadcastMessage)
    (h : m.delivered_to = []) :
    (process_broadcast (fun _ => true) (fun _ => false) q t m).2.2
      = (if (!(is_complete ((process_broadcast (fun _ => true) (fun _ => false) q t m).2.1))
             && should_retry ((process_broadcast (fun _ => true) (fun _ => false) q t m).2.1))
            = true
         then some (get_retry_delay
                ((process_broadcast (fun _ => true) (fun _ => false) q t m).2.1))
         else none) := by
  simp [process_all_fail q t m h]

/-- C4.  A broadcast message whose transport send fails for every target on
every pass: after each of the first two dispatch passes the message is
incomplete and a re-enqueue is scheduled `delay * 2 ^ attempts` seconds
later, with `attempts` the counter value after that pass's increment
(`2 ^ 1` and `2 ^ 2` times the base delay); after the third pass (the
default `max_attempts = 3`) the message has `attempts = 3`,
`is_complete = true`, an empty delivered-to set, failed-to equal to the
target set, and no further re-enqueue is scheduled. -/
theorem claim_C4_retry_exhaustion
    (tids : List String) (hne : tids ≠ []) (mid et tt : String) (prio : Int)
    (q1 q2 q3 : List Int) (t1 t2 t3 : Int)
    (m0 m1 m2 m3 : BroadcastMessage) (s1 s2 s3 : Option ℚ)
    (hm0 : m0 = new_message mid et tt tids prio)
    (h1m : m1 = (process_broadcast (fun _ => true) (fun _ => false) q1 t1 m0).2.1)
    (h1s : s1 = (process_broadcast (fun _ => true) (fun _ => false) q1 t1 m0).2.2)
    (h2m : m2 = (process_broadcast (fun _ => true) (fun _ => false) q2 t2 m1).2.1)
    (h2s : s2 = (process_broadcast (fun _ => true) (fun _ => false) q2 t2 m1).2.2)
    (h3m : m3 = (process_broadcast (fun _ => true) (fun _ => false) q3 t3 m2).2.1)
    (h3s : s3 = (process_broadcast (fun _ => true) (fun _ => false) q3 t3 m2).2.2) :
    m1.attempts = 1 ∧ is_complete m1 = false ∧ s1 = some (m0.delay * 2 ^ 1) ∧
    m2.attempts = 2 ∧ is_complete m2 = false ∧ s2 = some (m0.delay * 2 ^ 2) ∧
    m3.attempts = 3 ∧ is_complete m3 = true ∧ s3 = none ∧
    m3.delivered_to = [] ∧ m3.max_attempts = 3 ∧
    (∀ c, c ∈ m3.failed_to ↔ c ∈ tids) := by
  subst hm0
  have hlen : ¬ (tids.length ≤ 0) := by
    cases tids with
    | nil => exact absurd rfl hne
    | cons a l => simp
  have hm1 : m1 = { new_message mid et tt tids prio with
      failed_to := tids.foldl set_insert [], attempts := 1 } := by
    rw [h1m, process_all_fail_msg q1 t1 _ rfl]
    rfl
  have hic1 : is_complete m1 = false := by
    rw [hm1]
    simp [is_complete, should_retry, new_message, hlen]
  have hs1 : s1 = some ((new_message mid et tt tids prio).delay * 2 ^ 1) := by
    rw [h1s, process_all_fail_sched q1 t1 _ rfl, ← h1m, hic1, hm1]
    simp [should_retry, get_retry_delay, new_message]
  have hd1 : m1.delivered_to = [] := by
    rw [hm1]
    rfl
  have hm2 : m2 = { new_message mid et tt tids prio with
      failed_to := tids.foldl set_insert (tids.foldl set_insert []), attempts := 2 } := by
    rw [h2m, process_all_fail_msg q2 t2 m1 hd1, hm1]
    rfl
  have hic2 : is_complete m2 = false := by
    rw [hm2]
    simp [is_complete, should_retry, new_message, hlen]
  have hs2 : s2 = some ((new_message mid et tt tids prio).delay * 2 ^ 2) := by
    rw [h2s, process_all_fail_sched q2 t2 m1 hd1, ← h2m, hic2, hm2]
    simp [should_retry, get_retry_delay, new_message]
  have hd2 : m2.delivered_to = [] := by
    rw [hm2]
    rfl
  have hm3 : m3 = { new_message mid et tt tids prio with
      failed_to := tids.foldl set_insert (tids.foldl set_insert (tids.foldl set_insert [])),
      attempts := 3 } := by
    rw [h3m, process_all_fail_msg q3 t3 m2 hd2, hm2]
    rfl
  have hic3 : is_complete m3 = true := by
    rw [hm3]
    simp [is_complete, should_retry, new_message]
  have hs3 : s3 = none := by
    rw [h3s, process_all_fail_sched q3 t3 m2 hd2, ← h3m, hic3]
    simp
  refine ⟨by rw [hm1], hic1, hs1, by rw [hm2], hic2, hs2, by rw [hm3], hic3, hs3,
    by rw [hm3]; rfl, by rw [hm3]; rfl, ?_⟩
  intro c
  rw [hm3]
  simp [mem_foldl_set_insert]

theorem claim_C4_retry_exhaustion_witness :
    ((["A", "B"] : List String) ≠ []) ∧
    (process_broadcast (fun _ => true) (fun _ => false) [] 0
      (new_message "m" "e" "connection" ["A", "B"] 1)).2.1.attempts = 1 ∧
    is_complete (process_broadcast (fun _ => true) (fun _ => false) [] 0
      (new_message "m" "e" "connection" ["A", "B"] 1)).2.1 = false ∧
    (process_broadcast (fun _ => true) (fun _ => false) [] 0
      (new_message "m" "e" "connection" ["A", "B"] 1)).2.2
      = some ((new_message "m" "e" "connection" ["A", "B"] 1).delay * 2 ^ 1) ∧
    (process_broadcast (fun _ => true) (fun _ => false) [] 0
      ((process_broadcast (fun _ => true) (fun _ => false) [] 0
        (new_message "m" "e" "connection" ["A", "B"] 1)).2.1)).2.1.attempts = 2 ∧
    is_complete (process_broadcast (fun _ => true) (fun _ => false) [] 0
      ((process_broadcast (fun _ => true) (fun _ => false) [] 0
        (new_message "m" "e" "connection" ["A", "B"] 1)).2.1)).2.1 = false ∧
    (process_broadcast (fun _ => true) (fun _ => false) [] 0
      ((process_broadcast (fun _ => true) (fun _ => false) [] 0
        (new_message "m" "e" "connection" ["A", "B"] 1)).2.1)).2.2
      = some ((new_message "m" "e" "connection" ["A", "B"] 1).delay * 2 ^ 2) ∧
    (process_broadcast (fun _ => true) (fun _ => false) [] 0
      ((process_broadcast (fun _ => true) (fun _ => false) [] 0
        ((process_broadcast (fun _ => true) (fun _ => false) [] 0
          (new_message "m" "e" "connection" ["A", "B"] 1)).2.1)).2.1)).2.1.attempts = 3 ∧
    is_complete (process_broadcast (fun _ => true) (fun _ => false) [] 0
      ((process_broadcast (fun _ => true) (fun _ => false) [] 0
        ((process_broadcast (fun _ => true) (fun _ => false) [] 0
          (new_message "m" "e" "connection" ["A", "B"] 1)).2.1)).2.1)).2.1 = true ∧
    (process_broadcast (fun _ => true) (fun _ => false) [] 0
      ((process_broadcast (fun _ => true) (fun _ => false) [] 0
        ((process_broadcast (fun _ => true) (fun _ => false) [] 0
          (new_message "m" "e" "connection" ["A", "B"] 1)).2.1)).2.1)).2.2 = none ∧
    (process_broadcast (fun _ => true) (fun _ => false) [] 0
      ((process_broadcast (fun _ => true) (fun _ => false) [] 0
        ((process_broadcast (fun _ => true) (fun _ => false) [] 0
          (new_message "m" "e" "connection" ["A", "B"] 1)).2.1)).2.1)).2.1.delivered_to = [] ∧
    (∀ c, c ∈ (process_broadcast (fun _ => true) (fun _ => false) [] 0
      ((process_broadcast (fun _ => true) (fun _ => false) [] 0
        ((process_broadcast (fun _ => true) (fun _ => false) [] 0
          (new_message "m" "e" "connection" ["A", "B"] 1)).2.1)).2.1)).2.1.failed_to ↔
      c ∈ (["A", "B"] : List String)) := by
  have h := claim_C4_retry_exhaustion ["A", "B"] (by decide) "m" "e" "connection" 1
    [] [] [] 0 0 0 _ _ _ _ _ _ _ rfl rfl rfl rfl rfl rfl rfl
  exact ⟨by decide, h.1, h.2.1, h.2.2.1, h.2.2.2.1, h.2.2.2.2.1, h.2.2.2.2.2.1,
    h.2.2.2.2.2.2.1, h.2.2.2.2.2.2.2.1, h.2.2.2.2.2.2.2.2.1, h.2.2.2.2.2.2.2.2.2.1,
    h.2.2.2.2.2.2.2.2.2.2.2⟩

/-- C9 counterexample.  `broadcast_to_connections` — unlike the other three
entry points — has no empty-target guard: called with an empty connection
id list on a fresh service it still enqueues the message into the
low-priority queue and records it in `active_broadcasts` (while returning
the message id), so "enqueues nothing and adds nothing to the
active-broadcasts map" fails for this entry point. -/
theorem claim_C9_counterexample :
    (broadcast_to_connections init_service [] "mid" "evt" 1).1 = "mid" ∧
    (broadcast_to_connections init_service [] "mid" "evt" 1).2.low_priority_queue.length = 1 ∧
    (broadcast_to_connections init_service [] "mid" "evt" 1).2.active_broadcasts
      = [("mid", new_message "mid" "evt" "connection" [] 1)] := by
  refine ⟨rfl, by decide, by decide⟩

/-- C9 (amended).  The three entry points that resolve their targets
(to-room, to-user, system-wide) return the message id and enqueue nothing
when resolution yields zero connection ids; `broadcast_to_connections`
also returns the message id but always enqueues the message and records it
in `active_broadcasts`, even when its target id list is empty. -/
theorem claim_C9_amended (st : ServiceState) (mid et : String) (prio : Int) :
    broadcast_to_project st [] mid et prio = (mid, st) ∧
    broadcast_to_user st [] mid et prio = (mid, st) ∧
    broadcast_system_event st [] mid et prio = (mid, st) ∧
    ∀ ids : List String,
      (broadcast_to_connections st ids mid et prio).1 = mid ∧
      (broadcast_to_connections st ids mid et prio).2.total_broadcasts
        = st.total_broadcasts + 1 ∧
      alist_lookup (broadcast_to_connections st ids mid et prio).2.active_broadcasts mid
        = some (new_message mid et "connection" ids prio) := by
  refine ⟨rfl, rfl, rfl, ?_⟩
  intro ids
  refine ⟨rfl, ?_, ?_⟩
  · simp only [broadcast_to_connections, add_to_queue]
    split_ifs <;> rfl
  · simp only [broadcast_to_connections, add_to_queue]
    split_ifs <;> exact alist_lookup_insert_self _ _ _

open Events

/-- C10 counterexample.  A subscription whose `user_id` is the empty
string: Python's truthiness test `if self.user_id` skips the user check, so
the code matches an event carrying a different user id, while the claim's
condition "the event's user id equals the subscription's user id whenever
one is set" rejects it. -/
theorem claim_C10_counterexample :
    matches_event ⟨["a"], [], some "", none⟩ ⟨"a", [], none, some "u"⟩ = true ∧
    spec_matches ⟨["a"], [], some "", none⟩ ⟨"a", [], none, some "u"⟩ = false := by
  refine ⟨by decide, by decide⟩

/-- C10 (amended).  Subscription matching returns true exactly when the
event's type is in the subscription's event-type set, the event's room id
is in the subscription's room set whenever that set is non-empty, the
event's user id equals the subscription's user id whenever the latter is
set to a non-empty string (Python truthiness: a `None` or empty-string
subscription user id disables the check), and every filter key present in
the event payload maps to the expected value; a filter key absent from the
payload never disqualifies the match. -/
theorem claim_C10_subscription_matching (sub : EventSubscription) (event : WebSocketEvent) :
    matches_event sub event = true ↔
      (event.event_type ∈ sub.event_types ∧
       (sub.project_ids ≠ [] → opt_mem event.project_id sub.project_ids = true) ∧
       (truthy_str sub.user_id = true → event.user_id = sub.user_id) ∧
       (∀ kv ∈ sub.filters.getD [], ∀ v, alist_lookup event.data kv.1 = some v → v = kv.2)) := by
  unfold matches_event
  by_cases h1 : event.event_type ∈ sub.event_types
  case neg =>
    rw [if_pos h1]
    simp only [Bool.false_eq_true, false_iff]
    rintro ⟨hty, _, _, _⟩
    exact h1 hty
  case pos =>
    rw [if_neg (not_not_intro h1)]
    by_cases h2 : sub.project_ids ≠ [] ∧ ¬ (opt_mem event.project_id sub.project_ids = true)
    case pos =>
      rw [if_pos h2]
      simp only [Bool.false_eq_true, false_iff]
      rintro ⟨_, hpr, _, _⟩
      exact h2.2 (hpr h2.1)
    case neg =>
      rw [if_neg h2]
      by_cases h3 : truthy_str sub.user_id = true ∧ event.user_id ≠ sub.user_id
      case pos =>
        rw [if_pos h3]
        simp only [Bool.false_eq_true, false_iff]
        rintro ⟨_, _, hu, _⟩
        exact h3.2 (hu h3.1)
      case neg =>
        rw [if_neg h3]
        have hpr : sub.project_ids ≠ [] → opt_mem event.project_id sub.project_ids = true := by
          intro hne
          by_contra hmem
          exact h2 ⟨hne, hmem⟩
        have hu : truthy_str sub.user_id = true → event.user_id = sub.user_id := by
          intro ht
          by_contra hne
          exact h3 ⟨ht, hne⟩
        rcases hf : sub.filters with _ | fs
        · constructor
          · intro _
            exact ⟨h1, hpr, hu, by simp⟩
          · intro _
            rfl
        · simp only [Option.getD_some]
          change List.all fs _ = true ↔ _
          rw [List.all_eq_true]
          constructor
          · intro hall
            refine ⟨h1, hpr, hu, ?_⟩
            intro kv hkv v hv
            have hp := hall kv hkv
            rw [hv] at hp
            simpa using hp
          · rintro ⟨_, _, _, hflt⟩
            intro kv hkv
            cases hlk : alist_lookup event.data kv.1 with
            | none => simp [hlk]
            | some v =>
              simp only [hlk]
              exact decide_eq_true (hflt kv hkv v hlk)

open StatusService

/-- C3 counterexample.  An unresolved critical-severity alert is on record
and every component probe succeeds: the health-check pass still sets the
overall health flag to true, because `_perform_health_checks` computes
`healthy = all(components.values())` and never consults the alerts. -/
theorem claim_C3_counterexample :
    (perform_health_checks
      (add_alert init_status ⟨"error", "critical", "Error rate critically high"⟩)
      true true).healthy = true ∧
    (⟨"error", "critical", "Error rate critically high"⟩ : Alert) ∈
      (perform_health_checks
        (add_alert init_status ⟨"error", "critical", "Error rate critically high"⟩)
        true true).alerts := by
  refine ⟨by decide, by decide⟩

theorem components_update_component_status (s : SystemStatus) (c : String) (b : Bool) :
    (update_component_status s c b).components = alist_insert s.components c b := by
  unfold update_component_status add_alert
  split <;> rfl

/-- C3 (amended).  After every health-check pass the recorded overall
health flag is true exactly when every declared component is healthy; the
alert list — critical alerts included — has no effect on the flag (second
clause: running the pass with an extra alert on record yields the same
flag). -/
theorem claim_C3_overall_health (s : SystemStatus) (a : Alert) (r w : Bool) :
    ((perform_health_checks s r w).healthy = true ↔
      ∀ kv ∈ (perform_health_checks s r w).components, kv.2 = true) ∧
    (perform_health_checks (add_alert s a) r w).healthy
      = (perform_health_checks s r w).healthy := by
  constructor
  · simp [perform_health_checks, List.all_eq_true]
  · simp [perform_health_checks, components_update_component_status, add_alert]

open ConnectionManager

/-- C8.  `add_connection` refuses and performs no mutation when the
registry already holds `max_connections` connections (first clause: the
(N+1)-th add returns false and leaves the state — hence the registry —
exactly as it was), and likewise when the source address already holds the
per-address ceiling of 10 connections (second clause). -/
theorem claim_C8_connection_limits (st : Manager)
    (connection_id sid ip_address user_agent : String) :
    (st.max_connections ≤ st.connections.length →
      add_connection st connection_id sid ip_address user_agent = (false, st)) ∧
    (10 ≤ ip_count st ip_address →
      add_connection st connection_id sid ip_address user_agent = (false, st)) := by
  constructor
  · intro h
    unfold add_connection
    rw [if_pos h]
  · intro h
    unfold add_connection
    by_cases h1 : st.max_connections ≤ st.connections.length
    · rw [if_pos h1]
    · rw [if_neg h1, if_pos h]

theorem claim_C8_connection_limits_witness :
    (2 ≤ ((add_connection (add_connection (init_manager 2) "A" "sA" "ip1" "ua").2
        "B" "sB" "ip2" "ua").2).connections.length ∧
     add_connection ((add_connection (add_connection (init_manager 2) "A" "sA" "ip1" "ua").2
        "B" "sB" "ip2" "ua").2) "C" "sC" "ip3" "ua"
       = (false, (add_connection (add_connection (init_manager 2) "A" "sA" "ip1" "ua").2
           "B" "sB" "ip2" "ua").2)) ∧
    ((10 : Int) ≤ ip_count ⟨100, [], [], [], [], [("ip", 10)], 0, 0⟩ "ip" ∧
     add_connection ⟨100, [], [], [], [], [("ip", 10)], 0, 0⟩ "D" "sD" "ip" "ua"
       = (false, ⟨100, [], [], [], [], [("ip", 10)], 0, 0⟩)) :=
  ⟨⟨by decide, (claim_C8_connection_limits _ "C" "sC" "ip3" "ua").1 (by decide)⟩,
   ⟨by decide, (claim_C8_connection_limits _ "D" "sD" "ip" "ua").2 (by decide)⟩⟩

theorem room_members_eq_of_pc_eq (s s' : Manager)
    (h : s'.project_connections = s.project_connections) (p : String) :
    room_members s' p = room_members s p := by
  unfold room_members
  rw [h]

theorem remove_user_index_connections (st : Manager) (c : String) (info : ConnectionInfo) :
    (remove_user_index st c info).connections = st.connections := by
  unfold remove_user_index
  split <;> rfl

theorem remove_user_index_pc (st : Manager) (c : String) (info : ConnectionInfo) :
    (remove_user_index st c info).project_connections = st.project_connections := by
  unfold remove_user_index
  split <;> rfl

theorem remove_ip_entry_connections (st : Manager) (info : ConnectionInfo) :
    (remove_ip_entry st info).connections = st.connections := by
  unfold remove_ip_entry
  simp only []
  split <;> rfl

theorem remove_ip_entry_pc (st : Manager) (info : ConnectionInfo) :
    (remove_ip_entry st info).project_connections = st.project_connections := by
  unfold remove_ip_entry
  simp only []
  split <;> rfl

theorem remove_sid_entry_connections (st : Manager) (info : ConnectionInfo) :
    (remove_sid_entry st info).connections = st.connections := by
  unfold remove_sid_entry
  split <;> rfl

theorem remove_sid_entry_pc (st : Manager) (info : ConnectionInfo) :
    (remove_sid_entry st info).project_connections = st.project_connections := by
  unfold remove_sid_entry
  split <;> rfl

theorem discard_fold_connections (rooms : List String) (c : String) (s : Manager) :
    (rooms.foldl (discard_from_room c) s).connections = s.connections := by
  induction rooms generalizing s with
  | nil => rfl
  | cons r rest ih =>
    rw [List.foldl_cons, ih]
    rfl

theorem room_members_discard_one (c : String) (s : Manager) (r q : String) :
    room_members (discard_from_room c s r) q
      = if r = q then (room_members s r).erase c else room_members s q := by
  by_cases h : r = q
  · subst h
    simp [discard_from_room, room_members, alist_lookup_insert_self]
  · simp [discard_from_room, room_members, alist_lookup_insert_ne _ _ _ _ h, h]

theorem discard_fold_room_members (rooms : List String) (c : String) (s : Manager)
    (hnd : rooms.Nodup) (p : String) :
    room_members (rooms.foldl (discard_from_room c) s) p
      = if p ∈ rooms then (room_members s p).erase c else room_members s p := by
  induction rooms generalizing s with
  | nil => simp
  | cons r rest ih =>
    rw [List.foldl_cons]
    rw [List.nodup_cons] at hnd
    rw [ih (discard_from_room c s r) hnd.2]
    by_cases hp : p ∈ rest
    · have hpr : ¬ (r = p) := fun he => hnd.1 (he ▸ hp)
      rw [if_pos hp, room_members_discard_one, if_neg hpr,
        if_pos (List.mem_cons_of_mem r hp)]
    · rw [if_neg hp, room_members_discard_one]
      by_cases hrp : r = p
      · rw [if_pos hrp, if_pos (by rw [hrp]; exact List.mem_cons_self p rest), hrp]
      · rw [if_neg hrp, if_neg (by
          intro hmem
          rcases List.mem_cons.mp hmem with he | hm
          · exact hrp he.symm
          · exact hp hm)]

theorem consistent_init (n : Nat) : consistent (init_manager n) := by
  refine ⟨List.nodup_nil, ?_, ?_, ?_, ?_, ?_⟩
  · intro cid info h
    simp [init_manager, alist_lookup] at h
  · intro cid info h
    simp [init_manager, alist_lookup] at h
  · intro p
    simp [init_manager, room_members, alist_lookup]
  · intro cid info h
    simp [init_manager, alist_lookup] at h
  · intro p cid h
    simp [init_manager, room_members, alist_lookup] at h

theorem consistent_join (st : Manager) (c p : String) (h : consistent st) :
    consistent (join_project st c p).2 := by
  obtain ⟨hkeys, hkey, hpnd, hrnd, hcons, hreg⟩ := h
  unfold join_project
  cases hlk : alist_lookup st.connections c with
  | none => exact ⟨hkeys, hkey, hpnd, hrnd, hcons, hreg⟩
  | some info =>
    simp only []
    have hroom : ∀ q, room_members { st with
        connections := alist_insert st.connections c
          { info with project_ids := set_insert info.project_ids p },
        project_connections := alist_insert st.project_connections p
          (set_insert (room_members st p) c) } q
        = (if p = q then set_insert (room_members st p) c else room_members st q) := by
      intro q
      by_cases hq : p = q
      · subst hq
        simp [room_members, alist_lookup_insert_self]
      · simp [room_members, alist_lookup_insert_ne _ _ _ _ hq, hq]
    refine ⟨?_, ?_, ?_, ?_, ?_, ?_⟩
    · exact alist_nodup_insert _ _ _ hkeys
    · intro cid i hl
      by_cases hc : cid = c
      · subst hc
        rw [alist_lookup_insert_self] at hl
        have hi := Option.some.inj hl
        subst hi
        exact hkey cid info hlk
      · rw [alist_lookup_insert_ne _ _ _ _ (fun he => hc he.symm)] at hl
        exact hkey cid i hl
    · intro cid i hl
      by_cases hc : cid = c
      · subst hc
        rw [alist_lookup_insert_self] at hl
        have hi := Option.some.inj hl
        subst hi
        exact nodup_set_insert _ _ (hpnd cid info hlk)
      · rw [alist_lookup_insert_ne _ _ _ _ (fun he => hc he.symm)] at hl
        exact hpnd cid i hl
    · intro q
      rw [hroom q]
      by_cases hq : p = q
      · rw [if_pos hq]
        exact nodup_set_insert _ _ (hrnd p)
      · rw [if_neg hq]
        exact hrnd q
    · intro cid i hl q
      rw [hroom q]
      by_cases hc : cid = c
      · subst hc
        rw [alist_lookup_insert_self] at hl
        have hi := Option.some.inj hl
        subst hi
        rw [show ({ info with project_ids := set_insert info.project_ids p } :
              ConnectionInfo).project_ids = set_insert info.project_ids p from rfl,
          mem_set_insert]
        by_cases hq : p = q
        · rw [if_pos hq, mem_set_insert]
          subst hq
          simp
        · rw [if_neg hq]
          have hqp : ¬ (q = p) := fun he => hq he.symm
          constructor
          · rintro (hin | he)
            · exact (hcons cid info hlk q).mp hin
            · exact absurd he hqp
          · intro hmem
            exact Or.inl ((hcons cid info hlk q).mpr hmem)
      · rw [alist_lookup_insert_ne _ _ _ _ (fun he => hc he.symm)] at hl
        by_cases hq : p = q
        · rw [if_pos hq, mem_set_insert]
          subst hq
          constructor
          · intro hin
            exact Or.inl ((hcons cid i hl p).mp hin)
          · rintro (hm | he)
            · exact (hcons cid i hl p).mpr hm
            · exact absurd he hc
        · rw [if_neg hq]
          exact hcons cid i hl q
    · intro q cid hmem
      rw [hroom q] at hmem
      by_cases hc : cid = c
      · subst hc
        rw [alist_lookup_insert_self]
        rfl
      · rw [alist_lookup_insert_ne _ _ _ _ (fun he => hc he.symm)]
        by_cases hq : p = q
        · rw [if_pos hq, mem_set_insert] at hmem
          rcases hmem with hm | he
          · exact hreg q cid (hq ▸ hm)
          · exact absurd he hc
        · rw [if_neg hq] at hmem
          exact hreg q cid hmem

theorem consistent_leave (st : Manager) (c p : String) (h : consistent st) :
    consistent (leave_project st c p).2 := by
  obtain ⟨hkeys, hkey, hpnd, hrnd, hcons, hreg⟩ := h
  unfold leave_project
  cases hlk : alist_lookup st.connections c with
  | none => exact ⟨hkeys, hkey, hpnd, hrnd, hcons, hreg⟩
  | some info =>
    simp only []
    have hroom : ∀ q, room_members { st with
        connections := alist_insert st.connections c
          { info with project_ids := info.project_ids.erase p },
        project_connections := alist_insert st.project_connections p
          ((room_members st p).erase c) } q
        = (if p = q then (room_members st p).erase c else room_members st q) := by
      intro q
      by_cases hq : p = q
      · subst hq
        simp [room_members, alist_lookup_insert_self]
      · simp [room_members, alist_lookup_insert_ne _ _ _ _ hq, hq]
    refine ⟨?_, ?_, ?_, ?_, ?_, ?_⟩
    · exact alist_nodup_insert _ _ _ hkeys
    · intro cid i hl
      by_cases hc : cid = c
      · subst hc
        rw [alist_lookup_insert_self] at hl
        have hi := Option.some.inj hl
        subst hi
        exact hkey cid info hlk
      · rw [alist_lookup_insert_ne _ _ _ _ (fun he => hc he.symm)] at hl
        exact hkey cid i hl
    · intro cid i hl
      by_cases hc : cid = c
      · subst hc
        rw [alist_lookup_insert_self] at hl
        have hi := Option.some.inj hl
        subst hi
        exact List.Nodup.erase p (hpnd cid info hlk)
      · rw [alist_lookup_insert_ne _ _ _ _ (fun he => hc he.symm)] at hl
        exact hpnd cid i hl
    · intro q
      rw [hroom q]
      by_cases hq : p = q
      · rw [if_pos hq]
        exact List.Nodup.erase c (hrnd p)
      · rw [if_neg hq]
        exact hrnd q
    · intro cid i hl q
      rw [hroom q]
      by_cases hc : cid = c
      · subst hc
        rw [alist_lookup_insert_self] at hl
        have hi := Option.some.inj hl
        subst hi
        rw [show ({ info with project_ids := info.project_ids.erase p } :
              ConnectionInfo).project_ids = info.project_ids.erase p from rfl]
        by_cases hq : p = q
        · rw [if_pos hq]
          subst hq
          constructor
          · intro hin
            exact absurd rfl ((hpnd cid info hlk).mem_erase_iff.mp hin).1
          · intro hmem
            exact absurd rfl ((hrnd p).mem_erase_iff.mp hmem).1
        · rw [if_neg hq]
          have hqp : ¬ (q = p) := fun he => hq he.symm
          rw [List.mem_erase_of_ne hqp]
          exact hcons cid info hlk q
      · rw [alist_lookup_insert_ne _ _ _ _ (fun he => hc he.symm)] at hl
        by_cases hq : p = q
        · rw [if_pos hq]
          subst hq
          rw [List.mem_erase_of_ne hc]
          exact hcons cid i hl p
        · rw [if_neg hq]
          exact hcons cid i hl q
    · intro q cid hmem
      rw [hroom q] at hmem
      by_cases hc : cid = c
      · subst hc
        rw [alist_lookup_insert_self]
        rfl
      · rw [alist_lookup_insert_ne _ _ _ _ (fun he => hc he.symm)]
        by_cases hq : p = q
        · rw [if_pos hq] at hmem
          exact hreg q cid (hq ▸ List.mem_of_mem_erase hmem)
        · rw [if_neg hq] at hmem
          exact hreg q cid hmem

theorem consistent_add (st : Manager) (c s i u : String) (h : consistent st)
    (hfresh : alist_lookup st.connections c = none) :
    consistent (add_connection st c s i u).2 := by
  obtain ⟨hkeys, hkey, hpnd, hrnd, hcons, hreg⟩ := h
  unfold add_connection
  by_cases h1 : st.max_connections ≤ st.connections.length
  · rw [if_pos h1]
    exact ⟨hkeys, hkey, hpnd, hrnd, hcons, hreg⟩
  rw [if_neg h1]
  by_cases h2 : (10 : Int) ≤ ip_count st i
  · rw [if_pos h2]
    exact ⟨hkeys, hkey, hpnd, hrnd, hcons, hreg⟩
  rw [if_neg h2]
  refine ⟨?_, ?_, ?_, ?_, ?_, ?_⟩
  · exact alist_nodup_insert _ _ _ hkeys
  · intro cid info hl
    by_cases hc : cid = c
    · subst hc
      rw [alist_lookup_insert_self] at hl
      have hi := Option.some.inj hl
      subst hi
      rfl
    · rw [alist_lookup_insert_ne _ _ _ _ (fun he => hc he.symm)] at hl
      exact hkey cid info hl
  · intro cid info hl
    by_cases hc : cid = c
    · subst hc
      rw [alist_lookup_insert_self] at hl
      have hi := Option.some.inj hl
      subst hi
      exact List.nodup_nil
    · rw [alist_lookup_insert_ne _ _ _ _ (fun he => hc he.symm)] at hl
      exact hpnd cid info hl
  · exact hrnd
  · intro cid info hl q
    by_cases hc : cid = c
    · subst hc
      rw [alist_lookup_insert_self] at hl
      have hi := Option.some.inj hl
      subst hi
      constructor
      · intro hin
        exact absurd hin (List.not_mem_nil q)
      · intro hmem
        have hs := hreg q cid hmem
        rw [hfresh] at hs
        cases hs
    · rw [alist_lookup_insert_ne _ _ _ _ (fun he => hc he.symm)] at hl
      exact hcons cid info hl q
  · intro q cid hmem
    by_cases hc : cid = c
    · subst hc
      rw [alist_lookup_insert_self]
      rfl
    · rw [alist_lookup_insert_ne _ _ _ _ (fun he => hc he.symm)]
      exact hreg q cid hmem

theorem consistent_remove (st : Manager) (c : String) (h : consistent st) :
    consistent (remove_connection st c).2 := by
  obtain ⟨hkeys, hkey, hpnd, hrnd, hcons, hreg⟩ := h
  unfold remove_connection
  cases hlk : alist_lookup st.connections c with
  | none => exact ⟨hkeys, hkey, hpnd, hrnd, hcons, hreg⟩
  | some info =>
    simp only []
    have hru : ∀ q, room_members (remove_user_index st c info) q = room_members st q :=
      fun q => room_members_eq_of_pc_eq st _ (remove_user_index_pc st c info) q
    have hc4 : (remove_sid_entry (remove_ip_entry
        (List.foldl (discard_from_room c) (remove_user_index st c info) info.project_ids)
        info) info).connections = st.connections := by
      rw [remove_sid_entry_connections, remove_ip_entry_connections,
        discard_fold_connections, remove_user_index_connections]
    have hroom : ∀ q, room_members { remove_sid_entry (remove_ip_entry
        (List.foldl (discard_from_room c) (remove_user_index st c info) info.project_ids)
        info) info with
          connections := alist_erase (remove_sid_entry (remove_ip_entry
            (List.foldl (discard_from_room c) (remove_user_index st c info)
              info.project_ids) info) info).connections c
          active_connections := (remove_sid_entry (remove_ip_entry
            (List.foldl (discard_from_room c) (remove_user_index st c info)
              info.project_ids) info) info).active_connections - 1 } q
        = (if q ∈ info.project_ids then (room_members st q).erase c
           else room_members st q) := by
      intro q
      have h1 : room_members { remove_sid_entry (remove_ip_entry
          (List.foldl (discard_from_room c) (remove_user_index st c info) info.project_ids)
          info) info with
            connections := alist_erase (remove_sid_entry (remove_ip_entry
              (List.foldl (discard_from_room c) (remove_user_index st c info)
                info.project_ids) info) info).connections c
            active_connections := (remove_sid_entry (remove_ip_entry
              (List.foldl (discard_from_room c) (remove_user_index st c info)
                info.project_ids) info) info).active_connections - 1 } q
          = room_members (List.foldl (discard_from_room c) (remove_user_index st c info)
              info.project_ids) q := by
        apply room_members_eq_of_pc_eq
        simp only [remove_sid_entry_pc, remove_ip_entry_pc]
      rw [h1, discard_fold_room_members info.project_ids c _ (hpnd c info hlk) q, hru q]
    refine ⟨?_, ?_, ?_, ?_, ?_, ?_⟩
    · simp only [hc4]
      exact alist_nodup_erase _ _ hkeys
    · intro cid i hl
      simp only [hc4] at hl
      by_cases hc : cid = c
      · subst hc
        rw [alist_lookup_erase_self _ _ hkeys] at hl
        cases hl
      · rw [alist_lookup_erase_ne _ _ _ (fun he => hc he.symm)] at hl
        exact hkey cid i hl
    · intro cid i hl
      simp only [hc4] at hl
      by_cases hc : cid = c
      · subst hc
        rw [alist_lookup_erase_self _ _ hkeys] at hl
        cases hl
      · rw [alist_lookup_erase_ne _ _ _ (fun he => hc he.symm)] at hl
        exact hpnd cid i hl
    · intro q
      rw [hroom q]
      by_cases hq : q ∈ info.project_ids
      · rw [if_pos hq]
        exact List.Nodup.erase c (hrnd q)
      · rw [if_neg hq]
        exact hrnd q
    · intro cid i hl q
      simp only [hc4] at hl
      by_cases hc : cid = c
      · subst hc
        rw [alist_lookup_erase_self _ _ hkeys] at hl
        cases hl
      · rw [alist_lookup_erase_ne _ _ _ (fun he => hc he.symm)] at hl
        rw [hroom q]
        by_cases hq : q ∈ info.project_ids
        · rw [if_pos hq, List.mem_erase_of_ne hc]
          exact hcons cid i hl q
        · rw [if_neg hq]
          exact hcons cid i hl q
    · intro q cid hmem
      rw [hroom q] at hmem
      simp only [hc4]
      by_cases hq : q ∈ info.project_ids
      · rw [if_pos hq] at hmem
        have hne : cid ≠ c ∧ cid ∈ room_members st q := (hrnd q).mem_erase_iff.mp hmem
        rw [alist_lookup_erase_ne _ _ _ (fun he => hne.1 he.symm)]
        exact hreg q cid hne.2
      · rw [if_neg hq] at hmem
        have hne : ¬ (cid = c) := by
          intro he
          subst he
          exact hq ((hcons cid info hlk q).mpr hmem)
        rw [alist_lookup_erase_ne _ _ _ (fun he => hne he.symm)]
        exact hreg q cid hmem

theorem consistent_run (st : Manager) (ops : List Op) (h : consistent st)
    (hf : adds_fresh st ops = true) : consistent (run_ops st ops) := by
  induction ops generalizing st with
  | nil => exact h
  | cons op rest ih =>
    cases op with
    | add c s i u =>
      simp only [adds_fresh, Bool.and_eq_true] at hf
      exact ih (apply_op st (Op.add c s i u))
        (consistent_add st c s i u h (Option.isNone_iff_eq_none.mp hf.1)) hf.2
    | join c p =>
      simp only [adds_fresh, Bool.and_eq_true, true_and] at hf
      exact ih (apply_op st (Op.join c p)) (consistent_join st c p h) hf
    | leave c p =>
      simp only [adds_fresh, Bool.and_eq_true, true_and] at hf
      exact ih (apply_op st (Op.leave c p)) (consistent_leave st c p h) hf
    | remove c =>
      simp only [adds_fresh, Bool.and_eq_true, true_and] at hf
      exact ih (apply_op st (Op.remove c)) (consistent_remove st c h) hf

/-- C7.  For every sequence of registry operations starting from an empty
registry (the claim's alphabet is join/leave/remove; `add` is included so
the registry can be populated, under the spec's "connection id unique"
precondition `adds_fresh`): `get_project_connections` never returns a
connection record whose id is absent from the registry, and every
registered connection's own room-membership set equals the set of rooms
whose index contains that connection's id. -/
theorem claim_C7_room_membership_consistency (N : Nat) (ops : List Op)
    (hf : adds_fresh (init_manager N) ops = true) :
    (∀ p, ∀ i ∈ get_project_connections (run_ops (init_manager N) ops) p,
      (alist_lookup (run_ops (init_manager N) ops).connections i.connection_id).isSome
        = true) ∧
    (∀ cid i, alist_lookup (run_ops (init_manager N) ops).connections cid = some i →
      ∀ p, (p ∈ i.project_ids ↔ cid ∈ room_members (run_ops (init_manager N) ops) p)) := by
  obtain ⟨hkeys, hkey, hpnd, hrnd, hcons, hreg⟩ :=
    consistent_run (init_manager N) ops (consistent_init N) hf
  constructor
  · intro p i hi
    unfold get_project_connections at hi
    rcases List.mem_filterMap.mp hi with ⟨cid, hcid, hlk⟩
    rw [hkey cid i hlk, hlk]
    rfl
  · exact hcons

theorem claim_C7_room_membership_consistency_witness :
    adds_fresh (init_manager 10)
      [Op.add "A" "sA" "ip" "ua", Op.join "A" "p1", Op.add "B" "sB" "ip" "ua",
       Op.join "B" "p1", Op.leave "A" "p1", Op.remove "B"] = true ∧
    (∀ p, ∀ i ∈ get_project_connections (run_ops (init_manager 10)
        [Op.add "A" "sA" "ip" "ua", Op.join "A" "p1", Op.add "B" "sB" "ip" "ua",
         Op.join "B" "p1", Op.leave "A" "p1", Op.remove "B"]) p,
      (alist_lookup (run_ops (init_manager 10)
        [Op.add "A" "sA" "ip" "ua", Op.join "A" "p1", Op.add "B" "sB" "ip" "ua",
         Op.join "B" "p1", Op.leave "A" "p1", Op.remove "B"]).connections
        i.connection_id).isSome = true) ∧
    (∀ cid i, alist_lookup (run_ops (init_manager 10)
        [Op.add "A" "sA" "ip" "ua", Op.join "A" "p1", Op.add "B" "sB" "ip" "ua",
         Op.join "B" "p1", Op.leave "A" "p1", Op.remove "B"]).connections cid = some i →
      ∀ p, (p ∈ i.project_ids ↔ cid ∈ room_members (run_ops (init_manager 10)
        [Op.add "A" "sA" "ip" "ua", Op.join "A" "p1", Op.add "B" "sB" "ip" "ua",
         Op.join "B" "p1", Op.leave "A" "p1", Op.remove "B"]) p)) := by
  refine ⟨by decide, ?_, ?_⟩
  · exact (claim_C7_room_membership_consistency 10 _ (by decide)).1
  · exact (claim_C7_room_membership_consistency 10 _ (by decide)).2

end AiPm
